import Mathlib

/-!
Verification development for the character_creation repository.

The Python modules `src/character_input.py`, `src/csv_converter.py`,
`src/template_parser.py` and `src/dnd_enhancement.py` are shallowly
embedded below.  Python dictionaries are modelled as ordered association
lists (insertion order preserved, assigning to an existing key keeps its
position, as CPython dicts guarantee), Python values occurring in this
pipeline as the inductive `PyVal`, and Python string methods restricted
to the character sets this code base manipulates (ASCII) as explicit
list-of-characters recursions.  External collaborators (the Gemini text
generator, `json.loads`) appear as parameters of the embedded functions.
-/

set_option maxRecDepth 4000

/-- Python values as they occur in the character-creation pipeline:
`None`, booleans, strings, integers, dicts (ordered association lists) and
lists.  Floats, tuples and other types never reach the validated records. -/
inductive PyVal where
  | none : PyVal
  | bool : Bool → PyVal
  | str : String → PyVal
  | int : Int → PyVal
  | dict : List (String × PyVal) → PyVal
  | list : List PyVal → PyVal

/-- Entries of a Python dict with string keys, in insertion order. -/
abbrev Entries := List (String × PyVal)

/-- Python `d[k]` / `k in d` lookup: the value stored for `k` (keys of a
real Python dict are unique; on the embedding the first entry wins, which
is what every iteration below also sees). -/
def dictGet : Entries → String → Option PyVal
  | [], _ => Option.none
  | (k', v) :: rest, k => if k' = k then Option.some v else dictGet rest k

/-- Python `d[k] = v`: replace the value of an existing key in place,
otherwise append the new entry (CPython keeps the key's insertion
position on overwrite). -/
def dictSet : Entries → String → PyVal → Entries
  | [], k, v => [(k, v)]
  | (k', v') :: rest, k, v =>
    if k' = k then (k', v) :: rest else (k', v') :: dictSet rest k v

/-- Python truthiness `bool(x)` for the values of `PyVal`. -/
def pyTruthy : PyVal → Bool
  | PyVal.none => false
  | PyVal.bool b => b
  | PyVal.str s => if s = "" then false else true
  | PyVal.int n => if n = 0 then false else true
  | PyVal.dict [] => false
  | PyVal.dict (_ :: _) => true
  | PyVal.list [] => false
  | PyVal.list (_ :: _) => true

/-- Python `str.lower()` on the ASCII labels this code handles. -/
def pyLower (s : String) : String :=
  String.mk (s.data.map Char.toLower)

/-- Characters Python `str.strip()` removes (the ASCII whitespace set;
the labels handled here contain no exotic Unicode whitespace). -/
def isPyWs (c : Char) : Bool :=
  c = ' ' || c = '\t' || c = '\n' || c = '\r' || c = '\x0b' || c = '\x0c'

/-- Python `str.strip()`: drop leading and trailing whitespace. -/
def pyStrip (s : String) : String :=
  String.mk (((s.data.dropWhile isPyWs).reverse.dropWhile isPyWs).reverse)

/-- Python `str.replace(a, b)` for single characters `a`, `b`: every
occurrence of `a` becomes `b`, one for one. -/
def replaceChar (a b : Char) (s : String) : String :=
  String.mk (s.data.map (fun c => if c = a then b else c))

/-- Python `str.replace(a, '')` for a single character `a`: every
occurrence of `a` is removed. -/
def removeChar (a : Char) (s : String) : String :=
  String.mk (s.data.filter (fun c => ¬ c = a))

/-- Python `str.rstrip(c)` for a single character: drop trailing `c`s. -/
def rstripChar (a : Char) (s : String) : String :=
  String.mk ((s.data.reverse.dropWhile (fun c => c = a)).reverse)

/-- Whether `p` is an initial segment of `l` (Python `str.startswith`). -/
def listLeads : List Char → List Char → Bool
  | [], _ => true
  | _ :: _, [] => false
  | a :: as, b :: bs => a = b && listLeads as bs

/-- Python `s.startswith(p)`. -/
def strLeads (p s : String) : Bool :=
  listLeads p.data s.data

/-- Python `s.split(sep)` for a single-character separator, on char lists. -/
def splitChar (sep : Char) : List Char → List (List Char)
  | [] => [[]]
  | c :: rest =>
    let r := splitChar sep rest
    if c = sep then [] :: r
    else
      match r with
      | h :: t => (c :: h) :: t
      | [] => [[c]]

/-- String membership in a string list (Python `x in list_of_strings`). -/
def memStr (s : String) : List String → Bool
  | [] => false
  | t :: rest => if t = s then true else memStr s rest

namespace CharacterInput

/-- `MANDATORY_FIELDS` of `src/character_input.py`: canonical key and
human-readable description, in dict insertion order. -/
def MANDATORY_FIELDS : List (String × String) :=
  [("name", "Character name"),
   ("ethnicity", "Character ethnicity"),
   ("sex/gender", "Character sex/gender"),
   ("age", "Character age"),
   ("occupation", "Character occupation")]

/-- Section names of `TEMPLATE_SECTIONS` in `src/character_input.py`, in
declaration order (the validator's loops read only the section names;
the per-section field lists are never consulted by it). -/
def sectionNames : List String :=
  ["High-Level Overview", "Demographics", "Physical Appearance", "History",
   "Psychological Traits", "Communication",
   "Strengths, Weaknesses, and Abilities", "Relationships", "Character Growth"]

/-- The literal exclusion list of `validate_character_input`'s first loop:
`'metadata'` followed by the section names other than the header-only one,
exactly as written in the source. -/
def excludedTopKeys : List String :=
  ["metadata", "High-Level Overview", "Demographics", "Physical Appearance",
   "History", "Psychological Traits", "Communication",
   "Strengths, Weaknesses, and Abilities", "Relationships", "Character Growth"]

/-- `key.lower().replace('_', ' ')`, the normalization applied to nested
section keys and to candidate keys during the mandatory-field search. -/
def normKey (k : String) : String :=
  replaceChar '_' ' ' (pyLower k)

/-- The flattening phase of `validate_character_input`: top-level keys not
in the exclusion list, then for every template section present as a nested
dict, its keys hoisted in normalized form (later assignments overwrite). -/
def flattenInput (input : Entries) : Entries :=
  let top := input.foldl
    (fun acc kv => if memStr kv.1 excludedTopKeys then acc
                   else dictSet acc kv.1 kv.2) []
  sectionNames.foldl
    (fun acc sec =>
      match dictGet input sec with
      | Option.some (PyVal.dict d) =>
        d.foldl (fun a kv => dictSet a (normKey kv.1) kv.2) acc
      | _ => acc) top

/-- The case/underscore-insensitive search one mandatory field performs
over the flattened data: the first key whose normalized form equals the
(lowercased) mandatory key. -/
def findMandatory (flat : Entries) (mk : String) : Option PyVal :=
  match flat with
  | [] => Option.none
  | (k, v) :: rest =>
    if normKey k = pyLower mk then Option.some v else findMandatory rest mk

/-- The mandatory-field loop of `validate_character_input`: in enumeration
order, either record each mandatory value under its canonical key or stop
at the first miss with its error message. -/
def mandLoop (flat : Entries) : List (String × String) → Entries →
    Except String Entries
  | [], acc => Except.ok acc
  | (mk, desc) :: rest, acc =>
    match findMandatory flat mk with
    | Option.some v => mandLoop flat rest (dictSet acc mk v)
    | Option.none => Except.error ("Missing mandatory field: " ++ desc)

/-- The guard `any(m.lower() == template_field for m in MANDATORY_FIELDS)`
used by the optional-field projection. -/
def isMandatoryName (t : String) : Bool :=
  MANDATORY_FIELDS.any (fun md => pyLower md.1 = t)

/-- The nested dict stored in `input` under `sec`, or `[]` when the key is
absent or its value is not a dict (the source guards with `isinstance`). -/
def inputSection (input : Entries) (sec : String) : Entries :=
  match dictGet input sec with
  | Option.some (PyVal.dict d) => d
  | _ => []

/-- One section's optional projection: every key of the input's section
dict whose normalized form is not a mandatory field, in input order. -/
def sectionData : Entries → Entries → Entries
  | acc, [] => acc
  | acc, (k, v) :: rest =>
    let tf := normKey k
    if isMandatoryName tf then sectionData acc rest
    else sectionData (dictSet acc tf v) rest

/-- The optional-projection loop over all template sections: a section key
is added only when its projected data is non-empty. -/
def addSections (input : Entries) : List String → Entries → Entries
  | [], acc => acc
  | sec :: rest, acc =>
    let sd := sectionData [] (inputSection input sec)
    addSections input rest
      (if sd.isEmpty then acc else dictSet acc sec (PyVal.dict sd))

/-- Metadata extraction: the two recognized keys, `json_output` coerced
with Python `bool(...)`; anything else is dropped. -/
def extractMetadata (input : Entries) : Entries :=
  match dictGet input "metadata" with
  | Option.some (PyVal.dict m) =>
    let md0 : Entries :=
      match dictGet m "new_doc_title" with
      | Option.some v => dictSet [] "new_doc_title" v
      | Option.none => []
    (match dictGet m "json_output" with
     | Option.some v => dictSet md0 "json_output" (PyVal.bool (pyTruthy v))
     | Option.none => md0)
  | _ => []

/-- Specification-side description of the mandatory loop's short-circuit:
the first mandatory descriptor (in enumeration order) whose
case/underscore-insensitive search over the flattened data fails. -/
def firstMissing (flat : Entries) : List (String × String) →
    Option (String × String)
  | [] => Option.none
  | (mk, d) :: rest =>
    if (findMandatory flat mk).isSome then firstMissing flat rest
    else Option.some (mk, d)

/-- `validate_character_input` of `src/character_input.py`: flatten, check
the five mandatory fields (short-circuiting), project optional section
fields, extract metadata.  Being a pure function of its argument, it
cannot mutate the input object. -/
def validate_character_input (input : Entries) :
    Bool × Option String × Entries :=
  let flat := flattenInput input
  match mandLoop flat MANDATORY_FIELDS [] with
  | Except.error e => (false, Option.some e, [])
  | Except.ok normalized0 =>
    let withSections := addSections input sectionNames normalized0
    let meta := extractMetadata input
    (true, Option.none,
     if meta.isEmpty then withSections
     else dictSet withSections "metadata" (PyVal.dict meta))

end CharacterInput

namespace CsvConverter

/-- `TEMPLATE_SECTIONS` of `src/csv_converter.py`: ordered section names,
each with its ordered field list (no header-only section here). -/
def TEMPLATE_SECTIONS : List (String × List String) :=
  [("Demographics",
    ["name", "titles", "age", "sex/gender", "pronouns", "ethnicity",
     "occupation", "socioeconomic status", "education", "other notes"]),
   ("Physical Appearance",
    ["eye color", "skin color", "hair color", "height", "weight", "body type",
     "fitness level", "tattoos", "scars/birthmarks",
     "other distinguishing features", "disabilities", "fashion style",
     "accessories", "cleanliness/grooming", "posture/gait", "tics",
     "coordination (or lack thereof)", "weaknesses", "other notes"]),
   ("History",
    ["birth date", "place of birth", "key family members",
     "notable family events/milestones", "notable personal events/milestones",
     "criminal record", "affiliations", "allies", "enemies",
     "skeletons in the closet", "other historical notes"]),
   ("Psychological Traits",
    ["personality type", "personality traits", "temperament",
     "introvert/extrovert", "mannerisms", "educational background",
     "intelligence", "self-esteem", "hobbies", "skills/talents", "loves",
     "morals/virtues", "phobias/fears", "angered by", "pet peeves",
     "obsessed with", "routines", "bad habits", "desires", "flaws", "quirks",
     "favorite sayings", "disabilities", "secrets", "regrets",
     "accomplishments", "memories", "other notes"]),
   ("Communication",
    ["languages known", "preferred communication methods", "accent",
     "style and pacing of speech", "pitch", "laughter", "smile",
     "use of gestures", "facial expressions", "verbal expressions",
     "other notes"]),
   ("Strengths, Weaknesses, and Abilities",
    ["physical strengths", "physical weaknesses", "intellectual strengths",
     "intellectual weaknesses", "interpersonal strengths",
     "interpersonal weaknesses", "physical abilities", "magical abilities",
     "physical illnesses/conditions", "mental illnesses/conditions",
     "other notes"]),
   ("Relationships",
    ["partner(s)significant other(s)", "lover(s)", "parents/guardians",
     "children", "grandparents", "grandchildren", "family", "pets",
     "best friends", "friends", "rivals", "enemies", "colleagues",
     "mentors/teachers", "idols/role models", "followers", "strangers",
     "non-living things", "clubs/memberships", "social media presence",
     "public perception of them", "other notes"]),
   ("Character Growth",
    ["character archetype", "character arc", "core values",
     "internal conflicts", "external conflicts", "goals", "motivations",
     "epiphanies", "significant events/plot points", "other notes"])]

/-- `METADATA_FIELDS` of `src/csv_converter.py`. -/
def METADATA_FIELDS : List String := ["new_doc_title", "json_output"]

/-- `normalize_field_name`: `field.lower().strip().replace(' ', '_')` —
lowercase, trim surrounding whitespace, then map every space character
(and only spaces) to an underscore. -/
def normalize_field_name (field : String) : String :=
  replaceChar ' ' '_' (pyStrip (pyLower field))

/-- The inner scan of `find_matching_field` over the template sections:
first section (in declaration order) holding a field whose normalized
name equals the normalized column wins, and within it the first field. -/
def findInSections : List (String × List String) → String →
    Option (String × String)
  | [], _ => Option.none
  | (sec, fields) :: rest, n =>
    match fields.find? (fun f => normalize_field_name f = n) with
    | Option.some f => Option.some (sec, f)
    | Option.none => findInSections rest n

/-- `find_matching_field`: normalize the column label, try the metadata
fields, then scan the template sections in declaration order. -/
def find_matching_field (csv_column : String) : Option (String × String) :=
  let n := normalize_field_name csv_column
  match METADATA_FIELDS.find? (fun m => normalize_field_name m = n) with
  | Option.some m => Option.some ("metadata", m)
  | Option.none => findInSections TEMPLATE_SECTIONS n

/-- `convert_value`: empty or whitespace-only cells become `None`; the
value is stripped; for the `json_output` field the stripped value is
matched case-insensitively against the true/false token sets; everything
else passes through as the stripped string. -/
def convert_value (value : String) (field_name : String) : Option PyVal :=
  if pyStrip value = "" then Option.none
  else
    let v := pyStrip value
    if pyLower field_name = "json_output" then
      if memStr (pyLower v) ["true", "1", "yes", "y"] then
        Option.some (PyVal.bool true)
      else if memStr (pyLower v) ["false", "0", "no", "n"] then
        Option.some (PyVal.bool false)
      else Option.some (PyVal.str v)
    else Option.some (PyVal.str v)

/-- The per-cell step of `csv_row_to_character`: skip blank cells and
unmatched columns, convert the value, and file it under its section (or
under `metadata`), creating the nested dict on first use. -/
def rowStep (ch : Entries) (cell : String × String) : Entries :=
  if pyStrip cell.2 = "" then ch
  else
    match find_matching_field cell.1 with
    | Option.none => ch
    | Option.some (sec, field) =>
      match convert_value cell.2 field with
      | Option.none => ch
      | Option.some cv =>
        let nested : Entries :=
          match dictGet ch sec with
          | Option.some (PyVal.dict d) => d
          | _ => []
        dictSet ch sec (PyVal.dict (dictSet nested field cv))

/-- `csv_row_to_character`: fold the per-cell step over the row; the
function always reports success (unmatched columns are only logged). -/
def csv_row_to_character (row : List (String × String)) :
    Bool × Option String × Entries :=
  (true, Option.none, row.foldl rowStep [])

end CsvConverter

namespace TemplateParser

/-- Parser state of `parse_template_structure`: the structure built so far
(section name → ordered field names; every stored value is `None`, so a
section is just its key list) and the current section, if any. -/
abbrev ParseState := List (String × List String) × Option String

/-- Python `structure[sec] = {}`: reset an existing section in place or
append a fresh one. -/
def setSection : List (String × List String) → String →
    List (String × List String)
  | [], sec => [(sec, [])]
  | (s, fs) :: rest, sec =>
    if s = sec then (s, []) :: rest else (s, fs) :: setSection rest sec

/-- Python `structure[sec][field] = None`: adding an existing key again
changes nothing (the value is always `None`), a new key is appended.
The current section always exists in the structure when this is called. -/
def addField : List (String × List String) → String → String →
    List (String × List String)
  | [], _, _ => []
  | (s, fs) :: rest, sec, f =>
    if s = sec then (s, if memStr f fs then fs else fs ++ [f]) :: rest
    else (s, fs) :: addField rest sec f

/-- Python `line_stripped.find('**', 2)` restricted to what the source
needs: the index of the first occurrence of `**` at position ≥ 2. -/
def findStars : List Char → Nat → Option Nat
  | '*' :: '*' :: _, base => Option.some base
  | _ :: rest, base => findStars rest (base + 1)
  | [], _ => Option.none

/-- Python `field_text.split(':')[0]` when a colon is present. -/
def beforeColon (cs : List Char) : List Char :=
  cs.takeWhile (fun c => ¬ c = ':')

/-- One line of `parse_template_structure`: blank lines are skipped; a
`###` heading opens (and resets) a section; inside a section a
`**Label:**` line registers the bold text (no bracket check there) and a
`- ` / `* ` bullet registers the text before the colon unless it is empty
or starts with an opening bracket. -/
def stepLine (st : ParseState) (line : String) : ParseState :=
  let ls := pyStrip line
  if ls = "" then st
  else if strLeads "###" ls then
    let name := rstripChar ':' (pyStrip (removeChar '#' ls))
    (setSection st.1 name, Option.some name)
  else
    match st.2 with
    | Option.none => st
    | Option.some sec =>
      if strLeads "**" ls && (findStars (ls.data.drop 2) 2).isSome then
        match findStars (ls.data.drop 2) 2 with
        | Option.some endBold =>
          if 2 < endBold then
            let fieldText := String.mk ((ls.data.drop 2).take (endBold - 2))
            let fieldName := pyStrip (rstripChar ':' fieldText)
            if fieldName = "" then st else (addField st.1 sec fieldName, st.2)
          else st
        | Option.none => st
      else if strLeads "- " ls || strLeads "* " ls then
        let ft := String.mk
          ((ls.data.dropWhile (fun c => c = '-' || c = ' ' || c = '*')))
        let fieldText := pyStrip ft
        let fieldName :=
          if fieldText.data.contains ':' then
            pyStrip (String.mk (beforeColon fieldText.data))
          else fieldText
        if fieldName = "" then st
        else if strLeads "[" (pyLower fieldName) then st
        else (addField st.1 sec fieldName, st.2)
      else st

/-- `parse_template_structure` of `src/template_parser.py`: fold the line
step over the newline-split template text (`None` field values carry no
information, so the result keeps only the ordered key lists). -/
def parse_template_structure (template_text : String) :
    List (String × List String) :=
  (((splitChar '\n' template_text.data).map String.mk).foldl stepLine
    ([], Option.none)).1

/-- Index of the first character satisfying `p`, if any. -/
def firstIdx (p : Char → Bool) : List Char → Option Nat
  | [] => Option.none
  | c :: rest =>
    if p c then Option.some 0 else (firstIdx p rest).map (· + 1)

/-- Index of the last character satisfying `p`, if any. -/
def lastIdx (p : Char → Bool) : List Char → Option Nat
  | [] => Option.none
  | c :: rest =>
    match lastIdx p rest with
    | Option.some i => Option.some (i + 1)
    | Option.none => if p c then Option.some 0 else Option.none

/-- The span Python `re.search(r'\x7b[\s\S]*\x7d', text)` extracts: the
regex anchors at the leftmost `\x7b` that still has a `\x7d` somewhere
after it and greedily extends to the last `\x7d` of the whole text, so a
match exists exactly when the first `\x7b` precedes the last `\x7d`, and
it is the inclusive slice between those two positions. -/
def extractJsonSpan (s : String) : Option String :=
  match firstIdx (fun c => c = '\x7b') s.data,
        lastIdx (fun c => c = '\x7d') s.data with
  | Option.some i, Option.some j =>
    if i < j then Option.some (String.mk ((s.data.drop i).take (j - i + 1)))
    else Option.none
  | _, _ => Option.none

/-- JSON values, the result type of the modelled `json.loads`. -/
inductive Json where
  | null : Json
  | bool : Bool → Json
  | num : Int → Json
  | str : String → Json
  | arr : List Json → Json
  | obj : List (String × Json) → Json

/-- Characters `json.loads` skips between tokens. -/
def isJsonWs (c : Char) : Bool :=
  c = ' ' || c = '\t' || c = '\n' || c = '\r'

/-- String-literal body parser of the modelled `json.loads` (called after
the opening quote): plain characters and the single-character escapes. -/
def parseStrAux : List Char → List Char → Except String (String × List Char)
  | _, [] => Except.error "Unterminated string"
  | acc, '"' :: rest => Except.ok (String.mk acc.reverse, rest)
  | acc, '\\' :: e :: rest =>
    match e with
    | '"' => parseStrAux ('"' :: acc) rest
    | '\\' => parseStrAux ('\\' :: acc) rest
    | '/' => parseStrAux ('/' :: acc) rest
    | 'n' => parseStrAux ('\n' :: acc) rest
    | 't' => parseStrAux ('\t' :: acc) rest
    | 'r' => parseStrAux ('\r' :: acc) rest
    | _ => Except.error "Invalid escape"
  | acc, c :: rest => parseStrAux (c :: acc) rest

/-- Digit run of the modelled number parser. -/
def parseDigits : List Char → Nat → Option (Nat × List Char)
  | c :: rest, acc =>
    if c.isDigit then parseDigits rest (acc * 10 + (c.toNat - 48))
    else Option.some (acc, c :: rest)
  | [], acc => Option.some (acc, [])

/-- Integer parser of the modelled `json.loads`. -/
def parseNum : List Char → Except String (Json × List Char)
  | '-' :: c :: rest =>
    if c.isDigit then
      match parseDigits (c :: rest) 0 with
      | Option.some (n, rest') => Except.ok (Json.num (-(n : Int)), rest')
      | Option.none => Except.error "Expecting value"
    else Except.error "Expecting value"
  | cs =>
    match parseDigits cs 0 with
    | Option.some (n, rest') => Except.ok (Json.num (n : Int), rest')
    | Option.none => Except.error "Expecting value"

/-- Continuation tag for the modelled `json.loads`: parsing one value, or
inside an object's member loop, or inside an array's item loop. -/
inductive JFrame where
  | val : JFrame
  | objLoop : List (String × Json) → JFrame
  | arrLoop : List Json → JFrame

/-- Recursive core of the modelled `json.loads`, structurally fuelled; it
covers the JSON subset this repository exchanges (objects, arrays,
strings with simple escapes, integers and the three literals). -/
def parseMode : Nat → JFrame → List Char → Except String (Json × List Char)
  | 0, _, _ => Except.error "Out of fuel"
  | fuel + 1, JFrame.val, cs =>
    (match cs.dropWhile isJsonWs with
     | [] => Except.error "Expecting value"
     | '"' :: rest =>
       (match parseStrAux [] rest with
        | Except.ok (s, rest') => Except.ok (Json.str s, rest')
        | Except.error e => Except.error e)
     | 't' :: 'r' :: 'u' :: 'e' :: rest => Except.ok (Json.bool true, rest)
     | 'f' :: 'a' :: 'l' :: 's' :: 'e' :: rest =>
       Except.ok (Json.bool false, rest)
     | 'n' :: 'u' :: 'l' :: 'l' :: rest => Except.ok (Json.null, rest)
     | c :: rest =>
       if c = '\x7b' then
         match rest.dropWhile isJsonWs with
         | '\x7d' :: rest' => Except.ok (Json.obj [], rest')
         | _ => parseMode fuel (JFrame.objLoop []) rest
       else if c = '[' then
         match rest.dropWhile isJsonWs with
         | ']' :: rest' => Except.ok (Json.arr [], rest')
         | _ => parseMode fuel (JFrame.arrLoop []) rest
       else if c = '-' || c.isDigit then parseNum (c :: rest)
       else Except.error "Expecting value")
  | fuel + 1, JFrame.objLoop acc, cs =>
    (match cs.dropWhile isJsonWs with
     | '"' :: rest =>
       (match parseStrAux [] rest with
        | Except.error e => Except.error e
        | Except.ok (k, rest') =>
          match rest'.dropWhile isJsonWs with
          | ':' :: rest'' =>
            (match parseMode fuel JFrame.val rest'' with
             | Except.error e => Except.error e
             | Except.ok (v, rest''') =>
               match rest'''.dropWhile isJsonWs with
               | ',' :: more =>
                 parseMode fuel (JFrame.objLoop (acc ++ [(k, v)])) more
               | '\x7d' :: more => Except.ok (Json.obj (acc ++ [(k, v)]), more)
               | _ => Except.error "Expecting ',' delimiter")
          | _ => Except.error "Expecting ':' delimiter")
     | _ => Except.error "Expecting property name")
  | fuel + 1, JFrame.arrLoop acc, cs =>
    (match parseMode fuel JFrame.val cs with
     | Except.error e => Except.error e
     | Except.ok (v, rest) =>
       match rest.dropWhile isJsonWs with
       | ',' :: more => parseMode fuel (JFrame.arrLoop (acc ++ [v])) more
       | ']' :: more => Except.ok (Json.arr (acc ++ [v]), more)
       | _ => Except.error "Expecting ',' delimiter")

/-- Model of the external `json.loads`: parse one value and require only
whitespace after it.  Error strings stand in for Python's decode
messages; the structural theorems below do not depend on them. -/
def jsonParse (s : String) : Except String Json :=
  match parseMode (2 * s.data.length + 2) JFrame.val s.data with
  | Except.error e => Except.error e
  | Except.ok (j, rest) =>
    if (rest.dropWhile isJsonWs).isEmpty then Except.ok j
    else Except.error "Extra data"

/-- `validate_json_output` of `src/template_parser.py`, parameterized by
the external JSON parser it delegates to: extract the brace span (fail
with the no-JSON message when there is none), then parse it, wrapping a
parse failure's message in the decode-error text. -/
def validate_json_output (parse : String → Except String Json)
    (response_text : String) : Bool × Option Json × String :=
  match extractJsonSpan response_text with
  | Option.none => (false, Option.none, "No JSON found in response")
  | Option.some span =>
    match parse span with
    | Except.error e => (false, Option.none, "JSON decode error: " ++ e)
    | Except.ok j => (true, Option.some j, "")

end TemplateParser

namespace DND

/-- `DNDEnhancer.SPECIES` of `src/dnd_enhancement.py`. -/
def SPECIES : List String :=
  ["Human", "Elf", "Dwarf", "Halfling", "Dragonborn",
   "Gnome", "Half-Elf", "Half-Orc", "Tiefling", "Orc",
   "Goblin", "Kenku", "Tabaxi", "Aasimar", "Genasi",
   "Firbolg", "Kobold", "Lizardfolk", "Triton", "Bugbear",
   "Bearfolk", "Centaur", "Changeling", "Goliath", "Hobgoblin",
   "Loxodon", "Minotaur", "Satyr", "Vedalken", "Warforged"]

/-- `DNDEnhancer.CLASSES` of `src/dnd_enhancement.py`. -/
def CLASSES : List String :=
  ["Barbarian", "Bard", "Cleric", "Druid", "Fighter",
   "Monk", "Paladin", "Ranger", "Rogue", "Sorcerer",
   "Warlock", "Wizard", "Artificer", "Blood Hunter"]

/-- `DNDEnhancer.SUBCLASSES` of `src/dnd_enhancement.py`, verbatim
(including the source's duplicate entries). -/
def SUBCLASSES : List (String × List String) :=
  [("Barbarian",
    ["Berserker", "Totem Warrior", "Ancestral Guardian", "Storm Herald",
     "Zealot", "Werewolf", "Wild Magic", "Beast Master", "Rune Knight"]),
   ("Bard",
    ["Lore", "Glamour", "Whispers", "Swords", "Whispers", "Creation",
     "Eloquence", "Spirits", "Aberrant Mind", "College of Spirits"]),
   ("Cleric",
    ["Life", "Light", "Tempest", "Trickery", "War", "Knowledge", "Nature",
     "Forge", "Grave", "Order", "Peace", "Twilight", "Ambition", "Death"]),
   ("Druid",
    ["Land", "Moon", "Shepherd", "Dreams", "Wildfire", "Spores",
     "Stars", "Seas", "Underdark", "Mountain", "Grassland", "Forest"]),
   ("Fighter",
    ["Champion", "Battle Master", "Eldritch Knight", "Four Elements",
     "Brute", "Cavalier", "Samurai", "Arcane Archer", "Rune Knight",
     "Echo Knight"]),
   ("Monk",
    ["Way of the Open Hand", "Way of Shadow", "Way of the Long Death",
     "Way of the Four Elements", "Way of the Kensei", "Way of Mercy",
     "Way of Tranquility", "Way of the Ascendant Dragon", "Way of Twilight"]),
   ("Paladin",
    ["Devotion", "Ancients", "Vengeance", "Conquest", "Redemption",
     "Watchers", "Oath of the Watchers", "Oath of Heroism", "Oath of Glory"]),
   ("Ranger",
    ["Hunter", "Beast Master", "Gloom Stalker", "Monk", "Rune Knight",
     "Swarmkeeper", "Fey Wanderer", "Twilight Cleric", "Monster Slayer"]),
   ("Rogue",
    ["Thief", "Assassin", "Arcane Trickster", "Inquisitive",
     "Mastermind", "Swashbuckler", "Scout", "Phantom", "Soulknife",
     "Aberrant Mind"]),
   ("Sorcerer",
    ["Draconic Bloodline", "Wild Magic", "Divine Soul", "Shadow Magic",
     "Storm Sorcery", "Aberrant Mind", "Clockwork Soul", "Lunar Sorcery"]),
   ("Warlock",
    ["The Fiend", "The Great Old One", "The Archfey", "The Celestial",
     "The Hexblade", "The Undead", "The Raven Queen", "The Genie"]),
   ("Wizard",
    ["Abjuration", "Conjuration", "Divination", "Enchantment", "Evocation",
     "Illusion", "Necromancy", "Transmutation", "War Magic",
     "Chronurgy Magic"]),
   ("Artificer",
    ["Alchemist", "Armorer", "Artillerist", "Battle Smith",
     "Infusion Master"]),
   ("Blood Hunter",
    ["Order of the Lycan", "Order of the Profane Soul", "Order of the Mutant",
     "Order of the Ghostslayer", "Order of the Ritual"])]

/-- Lookup in the subclass catalog (Python `SUBCLASSES.get`/`in`). -/
def subclassesFor (character_class : String) : Option (List String) :=
  match SUBCLASSES.find? (fun p => p.1 = character_class) with
  | Option.some p => Option.some p.2
  | Option.none => Option.none

/-- `DNDEnhancer.is_valid_species`: exact membership in the catalog. -/
def is_valid_species (species : String) : Bool :=
  memStr species SPECIES

/-- `DNDEnhancer.is_valid_class`: exact membership in the catalog. -/
def is_valid_class (character_class : String) : Bool :=
  memStr character_class CLASSES

/-- `DNDEnhancer.is_valid_subclass`: false for an invalid class or a class
without a registered subclass list, else membership in that list. -/
def is_valid_subclass (character_class subclass : String) : Bool :=
  if ¬ is_valid_class character_class then false
  else
    match subclassesFor character_class with
    | Option.none => false
    | Option.some subs => memStr subclass subs

/-- Python truthiness of the optional `subclass` argument: `None` and the
empty string are falsy. -/
def subclassTruthy : Option String → Bool
  | Option.none => false
  | Option.some s => if s = "" then false else true

/-- The requirement block of `build_enhancement_prompt` when a (truthy)
subclass is given; `subName` is the interpolated `subclass or 'chosen'`. -/
def subclassRequirements (subName : String) : String :=
  "1. Add 'D&D Profile' section with:\n" ++
  "   - Class Features (appropriate for level)\n" ++
  "   - Subclass Features: Detail specific abilities from the " ++
  subName ++ " subclass\n" ++
  "   - Species Traits (inherent racial abilities)\n" ++
  "   - Ability Scores breakdown (STR, DEX, CON, INT, WIS, CHA)\n" ++
  "   - Hit Points (with CON modifier calculation)\n" ++
  "   - Skills & Proficiencies (tied to class and subclass)\n" ++
  "   - Equipment (starting or level-appropriate)\n" ++
  "   - Suggested Background hooks tied to character background\n" ++
  "2. Include specific subclass mechanics and roleplay implications\n" ++
  "3. Explain how subclass features enhance the character concept\n" ++
  "4. Maintain consistency with existing character personality and " ++
  "background\n" ++
  "5. Make mechanical choices align with the character concept\n" ++
  "6. Include roleplay notes for how species/class/subclass traits " ++
  "manifest in their personality\n"

/-- The requirement block of `build_enhancement_prompt` without a truthy
subclass. -/
def plainRequirements : String :=
  "1. Add 'D&D Profile' section with:\n" ++
  "   - Class Features (appropriate for level)\n" ++
  "   - Species Traits (inherent racial abilities)\n" ++
  "   - Ability Scores breakdown (STR, DEX, CON, INT, WIS, CHA)\n" ++
  "   - Hit Points (with CON modifier calculation)\n" ++
  "   - Skills & Proficiencies (tied to class)\n" ++
  "   - Equipment (starting or level-appropriate)\n" ++
  "   - Suggested Background hooks tied to character background\n" ++
  "2. Maintain consistency with existing character personality and " ++
  "background\n" ++
  "3. Make mechanical choices align with the character concept\n" ++
  "4. Include roleplay notes for how species/class traits manifest in " ++
  "their personality\n"

/-- `DNDEnhancer.build_enhancement_prompt`: the fixed prompt template
embedding the base character, the mechanical attributes (level verbatim
via Python string interpolation) and one of the two requirement blocks,
chosen by the truthiness of `subclass`. -/
def build_enhancement_prompt (base_character species character_class : String)
    (level : Int) (subclass : Option String) : String :=
  let subclassLine :=
    match subclass with
    | Option.some s => if s = "" then "" else "- Subclass: " ++ s ++ "\n"
    | Option.none => ""
  let requirements :=
    match subclass with
    | Option.some s =>
      if s = "" then plainRequirements else subclassRequirements s
    | Option.none => plainRequirements
  "You are a Dungeons & Dragons 5e 2024 character specialist. " ++
  "Your task is to enhance an existing character profile with " ++
  "D&D-specific details.\n\n" ++
  "EXISTING CHARACTER PROFILE:\n" ++
  "---\n" ++
  base_character ++ "\n" ++
  "---\n\n" ++
  "D&D 5e 2024 DETAILS:\n" ++
  "- Species: " ++ species ++ "\n" ++
  "- Class: " ++ character_class ++ "\n" ++
  "- Level: " ++ toString level ++ "\n" ++
  subclassLine ++ "\n" ++
  "ENHANCEMENT REQUIREMENTS:\n" ++
  requirements ++ "\n" ++
  "OUTPUT:\n" ++
  "Provide the full enhanced character profile with the new D&D " ++
  "section integrated naturally. " ++
  "Output ONLY the complete character profile with D&D enhancements, " ++
  "nothing else."

/-- `DNDEnhancer.enhance_character`, parameterized by the external text
generator it delegates to: validate species, class and (truthy) subclass
before any generator call — raising `ValueError` is modelled as
`Except.error` — then return the generator's output for the built prompt
verbatim.  The level is never validated here (the 1–20 warning lives in
the caller, `main.py`, and rejects nothing). -/
def enhance_character (generate : String → String)
    (base_character species character_class : String) (level : Int)
    (subclass : Option String) : Except String String :=
  if ¬ is_valid_species species then
    Except.error ("Invalid D&D species: " ++ species)
  else if ¬ is_valid_class character_class then
    Except.error ("Invalid D&D class: " ++ character_class)
  else if subclassTruthy subclass &&
      ! is_valid_subclass character_class (subclass.getD "") then
    Except.error ("Invalid D&D subclass '" ++ subclass.getD "" ++
      "' for class '" ++ character_class ++ "'")
  else
    Except.ok (generate
      (build_enhancement_prompt base_character species character_class level
        subclass))

end DND

/-! ### General lemmas about the dict model -/

theorem dictGet_dictSet (es : Entries) (k : String) (v : PyVal) (q : String) :
    dictGet (dictSet es k v) q = if q = k then Option.some v else dictGet es q := by
  induction es with
  | nil =>
    by_cases h : q = k
    · simp [dictSet, dictGet, h]
    · simp [dictSet, dictGet, h, Ne.symm h]
  | cons kv rest ih =>
    obtain ⟨k', v'⟩ := kv
    by_cases hk : k' = k
    · subst hk
      by_cases hq : q = k'
      · simp [dictSet, dictGet, hq]
      · simp [dictSet, dictGet, hq, Ne.symm hq]
    · by_cases hq : q = k'
      · have hqk : ¬ q = k := fun h => hk (hq ▸ h)
        simp [dictSet, dictGet, hk, hq.symm, hqk]
      · simp [dictSet, dictGet, hk, Ne.symm hq, ih]

theorem dictSet_ne_nil (es : Entries) (k : String) (v : PyVal) :
    dictSet es k v ≠ [] := by
  cases es with
  | nil => simp [dictSet]
  | cons kv rest =>
    obtain ⟨k', v'⟩ := kv
    by_cases h : k' = k <;> simp [dictSet, h]

/-! ### Lemmas about the mandatory-field loop -/

namespace CharacterInput

theorem mandLoop_ok_keeps (flat : Entries) (ms : List (String × String)) :
    ∀ (acc out : Entries), mandLoop flat ms acc = Except.ok out →
      ∀ k : String, (dictGet acc k).isSome = true → (dictGet out k).isSome = true := by
  induction ms with
  | nil =>
    intro acc out h k hk
    simp [mandLoop] at h
    exact h ▸ hk
  | cons p rest ih =>
    obtain ⟨mk, d⟩ := p
    intro acc out h k hk
    simp only [mandLoop] at h
    cases hf : findMandatory flat mk with
    | none => rw [hf] at h; exact absurd h (by simp)
    | some v =>
      rw [hf] at h
      refine ih (dictSet acc mk v) out h k ?_
      rw [dictGet_dictSet]
      by_cases hq : k = mk <;> simp [hq, hk]

theorem mandLoop_ok_mem (flat : Entries) (ms : List (String × String)) :
    ∀ (acc out : Entries), mandLoop flat ms acc = Except.ok out →
      ∀ p ∈ ms, (dictGet out p.1).isSome = true := by
  induction ms with
  | nil => intro acc out _ p hp; exact absurd hp (by simp)
  | cons q rest ih =>
    obtain ⟨mk, d⟩ := q
    intro acc out h p hp
    simp only [mandLoop] at h
    cases hf : findMandatory flat mk with
    | none => rw [hf] at h; exact absurd h (by simp)
    | some v =>
      rw [hf] at h
      rcases List.mem_cons.mp hp with heq | hmem
      · subst heq
        refine mandLoop_ok_keeps flat rest _ out h mk ?_
        simp [dictGet_dictSet]
      · exact ih (dictSet acc mk v) out h p hmem

theorem mandLoop_ok_keys (flat : Entries) (ms : List (String × String)) :
    ∀ (acc out : Entries), mandLoop flat ms acc = Except.ok out →
      ∀ k : String, (dictGet out k).isSome = true →
        (dictGet acc k).isSome = true ∨ k ∈ ms.map Prod.fst := by
  induction ms with
  | nil =>
    intro acc out h k hk
    simp [mandLoop] at h
    exact Or.inl (h ▸ hk)
  | cons p rest ih =>
    obtain ⟨mk, d⟩ := p
    intro acc out h k hk
    simp only [mandLoop] at h
    cases hf : findMandatory flat mk with
    | none => rw [hf] at h; exact absurd h (by simp)
    | some v =>
      rw [hf] at h
      rcases ih (dictSet acc mk v) out h k hk with hacc | hmem
      · rw [dictGet_dictSet] at hacc
        by_cases hq : k = mk
        · exact Or.inr (by simp [hq])
        · rw [if_neg hq] at hacc
          exact Or.inl hacc
      · refine Or.inr ?_
        rw [List.map_cons]
        exact List.mem_cons_of_mem _ hmem

theorem firstMissing_spec (flat : Entries) (ms : List (String × String)) :
    ∀ mk d, firstMissing flat ms = Option.some (mk, d) →
      ∃ pre post, ms = pre ++ (mk, d) :: post ∧
        (∀ p ∈ pre, (findMandatory flat p.1).isSome = true) ∧
        findMandatory flat mk = Option.none := by
  induction ms with
  | nil => intro mk d h; exact absurd h (by simp [firstMissing])
  | cons q rest ih =>
    obtain ⟨mk', d'⟩ := q
    intro mk d h
    simp only [firstMissing] at h
    by_cases hf : (findMandatory flat mk').isSome = true
    · rw [if_pos hf] at h
      obtain ⟨pre, post, hms, hpre, hmiss⟩ := ih mk d h
      exact ⟨(mk', d') :: pre, post, by simp [hms], by
        intro p hp
        rcases List.mem_cons.mp hp with heq | hmem
        · subst heq; exact hf
        · exact hpre p hmem, hmiss⟩
    · rw [if_neg hf] at h
      have h1 : mk' = mk ∧ d' = d := by
        have := Option.some.inj h
        exact Prod.mk.injEq _ _ _ _ ▸ this
      obtain ⟨rfl, rfl⟩ := h1
      exact ⟨[], rest, rfl, by simp, Option.not_isSome_iff_eq_none.mp hf⟩

theorem firstMissing_mandLoop (flat : Entries) (ms : List (String × String)) :
    ∀ mk d, firstMissing flat ms = Option.some (mk, d) →
      ∀ acc, mandLoop flat ms acc =
        Except.error ("Missing mandatory field: " ++ d) := by
  induction ms with
  | nil => intro mk d h; exact absurd h (by simp [firstMissing])
  | cons q rest ih =>
    obtain ⟨mk', d'⟩ := q
    intro mk d h acc
    simp only [firstMissing] at h
    simp only [mandLoop]
    cases hf : findMandatory flat mk' with
    | some v =>
      rw [hf] at h
      simp at h
      exact ih mk d h _
    | none =>
      rw [hf] at h
      simp at h
      simp [h.2]

theorem firstMissing_isSome_of_missing (flat : Entries)
    (ms : List (String × String)) :
    ∀ p ∈ ms, findMandatory flat p.1 = Option.none →
      (firstMissing flat ms).isSome = true := by
  induction ms with
  | nil => intro p hp; exact absurd hp (by simp)
  | cons q rest ih =>
    obtain ⟨mk', d'⟩ := q
    intro p hp hmiss
    simp only [firstMissing]
    by_cases hf : (findMandatory flat mk').isSome = true
    · rw [if_pos hf]
      rcases List.mem_cons.mp hp with heq | hmem
      · subst heq; simp [hmiss] at hf
      · exact ih p hmem hmiss
    · simp [if_neg hf]

end CharacterInput

/-! ### Lemmas about the optional-section projection -/

namespace CharacterInput

theorem sectionData_ne_nil (d : Entries) :
    ∀ acc : Entries, acc ≠ [] → sectionData acc d ≠ [] := by
  induction d with
  | nil => intro acc h; simpa [sectionData] using h
  | cons kv rest ih =>
    obtain ⟨k, v⟩ := kv
    intro acc h
    by_cases hm : isMandatoryName (normKey k) = true
    · simpa [sectionData, hm] using ih acc h
    · simp only [sectionData]
      rw [if_neg hm]
      exact ih _ (dictSet_ne_nil acc (normKey k) v)

theorem sectionData_nil_iff (d : Entries) :
    sectionData [] d = [] ↔
      ∀ kv ∈ d, isMandatoryName (normKey kv.1) = true := by
  induction d with
  | nil => simp [sectionData]
  | cons kv rest ih =>
    obtain ⟨k, v⟩ := kv
    by_cases hm : isMandatoryName (normKey k) = true
    · simpa [sectionData, hm] using ih
    · constructor
      · intro h
        exfalso
        have : sectionData (dictSet [] (normKey k) v) rest ≠ [] :=
          sectionData_ne_nil rest _ (dictSet_ne_nil [] (normKey k) v)
        apply this
        simpa [sectionData, hm, if_neg hm] using h
      · intro h
        exact absurd (h (k, v) (List.mem_cons_self _ _)) hm

theorem addSections_get_not_mem (input : Entries) (secs : List String) :
    ∀ (acc : Entries) (sec : String), sec ∉ secs →
      dictGet (addSections input secs acc) sec = dictGet acc sec := by
  induction secs with
  | nil => intro acc sec _; simp [addSections]
  | cons s rest ih =>
    intro acc sec hsec
    have hs : sec ≠ s := fun h => hsec (h ▸ List.mem_cons_self _ _)
    have hrest : sec ∉ rest := fun h => hsec (List.mem_cons_of_mem _ h)
    simp only [addSections]
    rw [ih _ sec hrest]
    by_cases he : (sectionData [] (inputSection input s)).isEmpty = true
    · simp [he]
    · simp [he, dictGet_dictSet, hs]

theorem addSections_get_mem (input : Entries) (secs : List String) :
    ∀ (acc : Entries) (sec : String), sec ∈ secs → secs.Nodup →
      dictGet (addSections input secs acc) sec =
        (if (sectionData [] (inputSection input sec)).isEmpty then
          dictGet acc sec
         else Option.some (PyVal.dict (sectionData [] (inputSection input sec)))) := by
  induction secs with
  | nil => intro acc sec h _; exact absurd h (by simp)
  | cons s rest ih =>
    intro acc sec hsec hnd
    rcases List.mem_cons.mp hsec with heq | hmem
    · subst heq
      have hrest : sec ∉ rest := (List.nodup_cons.mp hnd).1
      simp only [addSections]
      rw [addSections_get_not_mem input rest _ sec hrest]
      by_cases he : (sectionData [] (inputSection input sec)).isEmpty = true
      · simp [he]
      · simp [he, dictGet_dictSet]
    · have hs : sec ≠ s := fun h => (List.nodup_cons.mp hnd).1 (h ▸ hmem)
      simp only [addSections]
      rw [ih _ sec hmem (List.nodup_cons.mp hnd).2]
      by_cases he : (sectionData [] (inputSection input s)).isEmpty = true
      · simp [he]
      · simp [he, dictGet_dictSet, hs]

end CharacterInput

/-! ### Decomposition of a successful validation -/

namespace CharacterInput

theorem validate_ok_decomp (input : Entries) (e : Option String) (rec : Entries)
    (h : validate_character_input input = (true, e, rec)) :
    ∃ n0 : Entries,
      mandLoop (flattenInput input) MANDATORY_FIELDS [] = Except.ok n0 ∧
      e = Option.none ∧
      rec = (if (extractMetadata input).isEmpty then
               addSections input sectionNames n0
             else dictSet (addSections input sectionNames n0) "metadata"
               (PyVal.dict (extractMetadata input))) := by
  simp only [validate_character_input] at h
  cases hm : mandLoop (flattenInput input) MANDATORY_FIELDS [] with
  | error err =>
    rw [hm] at h
    exact absurd (congrArg Prod.fst h) (by simp)
  | ok n0 =>
    rw [hm] at h
    refine ⟨n0, rfl, ?_, ?_⟩
    · exact (Prod.mk.injEq _ _ _ _ ▸ congrArg Prod.snd h).1.symm
    · exact (Prod.mk.injEq _ _ _ _ ▸ congrArg Prod.snd h).2.symm

end CharacterInput

/-! ### The claims -/

/-- C1: whenever `validate_character_input` reports `ok`, the returned
canonical record holds all five mandatory fields as top-level keys, and it
holds a template-section key exactly when the input's section dict has at
least one entry whose normalized key is not a mandatory field — the
section's value then being that non-empty projection, so no empty section
objects ever appear.  The embedded validator is a pure function of its
argument, so the input object is left unmodified by construction. -/
theorem validate_ok_shape (input : Entries) (e : Option String) (rec : Entries)
    (h : CharacterInput.validate_character_input input = (true, e, rec)) :
    (∀ md ∈ CharacterInput.MANDATORY_FIELDS, (dictGet rec md.1).isSome = true) ∧
    (∀ sec ∈ CharacterInput.sectionNames,
      dictGet rec sec =
        (if (CharacterInput.sectionData []
              (CharacterInput.inputSection input sec)).isEmpty then Option.none
         else Option.some (PyVal.dict (CharacterInput.sectionData []
           (CharacterInput.inputSection input sec)))) ∧
      (CharacterInput.sectionData [] (CharacterInput.inputSection input sec) = []
        ↔ ∀ kv ∈ CharacterInput.inputSection input sec,
            CharacterInput.isMandatoryName (CharacterInput.normKey kv.1) = true)) := by
  obtain ⟨n0, hm, he, hrec⟩ := CharacterInput.validate_ok_decomp input e rec h
  have hmdfacts : ∀ md ∈ CharacterInput.MANDATORY_FIELDS,
      md.1 ∉ CharacterInput.sectionNames ∧ ¬ md.1 = "metadata" := by decide
  have hsecfacts : ∀ sec ∈ CharacterInput.sectionNames,
      ¬ sec = "metadata" ∧ sec ∉ CharacterInput.MANDATORY_FIELDS.map Prod.fst := by
    decide
  have hnd : CharacterInput.sectionNames.Nodup := by decide
  constructor
  · intro md hmd
    obtain ⟨hns, hnm⟩ := hmdfacts md hmd
    have h1 : dictGet rec md.1 =
        dictGet (CharacterInput.addSections input CharacterInput.sectionNames n0)
          md.1 := by
      rw [hrec]
      by_cases hemp : (CharacterInput.extractMetadata input).isEmpty = true
      · rw [if_pos hemp]
      · rw [if_neg hemp, dictGet_dictSet, if_neg hnm]
    rw [h1, CharacterInput.addSections_get_not_mem input _ n0 md.1 hns]
    exact CharacterInput.mandLoop_ok_mem _ _ [] n0 hm md hmd
  · intro sec hsec
    obtain ⟨hnm, hnmand⟩ := hsecfacts sec hsec
    have hn0 : dictGet n0 sec = Option.none := by
      by_contra hne
      have hsome : (dictGet n0 sec).isSome = true :=
        Option.ne_none_iff_isSome.mp hne
      rcases CharacterInput.mandLoop_ok_keys _ _ [] n0 hm sec hsome with hacc | hmem
      · simp [dictGet] at hacc
      · exact hnmand hmem
    have h1 : dictGet rec sec =
        dictGet (CharacterInput.addSections input CharacterInput.sectionNames n0)
          sec := by
      rw [hrec]
      by_cases hemp : (CharacterInput.extractMetadata input).isEmpty = true
      · rw [if_pos hemp]
      · rw [if_neg hemp, dictGet_dictSet, if_neg hnm]
    constructor
    · rw [h1, CharacterInput.addSections_get_mem input _ n0 sec hsec hnd, hn0]
    · constructor
      · intro hnil
        exact (CharacterInput.sectionData_nil_iff _).mp hnil
      · intro hall
        exact (CharacterInput.sectionData_nil_iff _).mpr hall

/-- C1 witness: a concrete valid input (five top-level mandatory fields
plus one Communication field) on which the theorem's hypothesis is
discharged by evaluation. -/
theorem validate_ok_shape_witness :
    (dictGet [("name", PyVal.str "Wit"), ("ethnicity", PyVal.str "Elf"),
      ("sex/gender", PyVal.str "f"), ("age", PyVal.str "30s"),
      ("occupation", PyVal.str "scribe"),
      ("Communication", PyVal.dict [("accent", PyVal.str "thick")])]
      "name").isSome = true :=
  (validate_ok_shape
    [("name", PyVal.str "Wit"), ("ethnicity", PyVal.str "Elf"),
     ("sex/gender", PyVal.str "f"), ("age", PyVal.str "30s"),
     ("occupation", PyVal.str "scribe"),
     ("Communication", PyVal.dict [("Accent", PyVal.str "thick")])]
    Option.none
    [("name", PyVal.str "Wit"), ("ethnicity", PyVal.str "Elf"),
     ("sex/gender", PyVal.str "f"), ("age", PyVal.str "30s"),
     ("occupation", PyVal.str "scribe"),
     ("Communication", PyVal.dict [("accent", PyVal.str "thick")])]
    rfl).1 ("name", "Character name") (by decide)

/-- C2: when some mandatory field is absent from the flattened input,
`validate_character_input` fails with the message naming the description
of the first missing mandatory field in enumeration order (name,
ethnicity, sex/gender, age, occupation) and returns the empty record; in
particular the empty input object fails naming `Character name`. -/
theorem validate_missing_mandatory (input : Entries)
    (h : ∃ p ∈ CharacterInput.MANDATORY_FIELDS,
      CharacterInput.findMandatory (CharacterInput.flattenInput input) p.1 =
        Option.none) :
    (∃ pre mk d post, CharacterInput.MANDATORY_FIELDS = pre ++ (mk, d) :: post ∧
      (∀ p ∈ pre, (CharacterInput.findMandatory
        (CharacterInput.flattenInput input) p.1).isSome = true) ∧
      CharacterInput.findMandatory (CharacterInput.flattenInput input) mk =
        Option.none ∧
      CharacterInput.validate_character_input input =
        (false, Option.some ("Missing mandatory field: " ++ d), [])) ∧
    CharacterInput.validate_character_input [] =
      (false, Option.some "Missing mandatory field: Character name", []) := by
  constructor
  · obtain ⟨p, hp, hmiss⟩ := h
    have hsome := CharacterInput.firstMissing_isSome_of_missing
      (CharacterInput.flattenInput input) CharacterInput.MANDATORY_FIELDS p hp hmiss
    obtain ⟨⟨mk, d⟩, hfm⟩ := Option.isSome_iff_exists.mp hsome
    obtain ⟨pre, post, hdec, hpre, hmk⟩ :=
      CharacterInput.firstMissing_spec _ _ mk d hfm
    refine ⟨pre, mk, d, post, hdec, hpre, hmk, ?_⟩
    have herr := CharacterInput.firstMissing_mandLoop _ _ mk d hfm []
    simp only [CharacterInput.validate_character_input, herr]
  · rfl

/-- C2 witness: the empty input object discharges the hypothesis (every
mandatory field is absent) and yields the `name`-first error. -/
theorem validate_missing_mandatory_witness :
    CharacterInput.validate_character_input [] =
      (false, Option.some "Missing mandatory field: Character name", []) :=
  (validate_missing_mandatory []
    ⟨("name", "Character name"), by decide, rfl⟩).2

/-- C3: the tabular row of the end-to-end scenario maps through
`csv_row_to_character` to a single Demographics block, and
`validate_character_input` then returns exactly the five mandatory fields
at top level — no section blocks and no metadata key. -/
theorem bram_row_end_to_end :
    CsvConverter.csv_row_to_character
      [("Name", "Bram"), ("Sex/Gender", "male"), ("Age", "adult"),
       ("Ethnicity", "Human"), ("Occupation", "blacksmith")] =
      (true, Option.none,
       [("Demographics", PyVal.dict
         [("name", PyVal.str "Bram"), ("sex/gender", PyVal.str "male"),
          ("age", PyVal.str "adult"), ("ethnicity", PyVal.str "Human"),
          ("occupation", PyVal.str "blacksmith")])]) ∧
    CharacterInput.validate_character_input
      [("Demographics", PyVal.dict
        [("name", PyVal.str "Bram"), ("sex/gender", PyVal.str "male"),
         ("age", PyVal.str "adult"), ("ethnicity", PyVal.str "Human"),
         ("occupation", PyVal.str "blacksmith")])] =
      (true, Option.none,
       [("name", PyVal.str "Bram"), ("ethnicity", PyVal.str "Human"),
        ("sex/gender", PyVal.str "male"), ("age", PyVal.str "adult"),
        ("occupation", PyVal.str "blacksmith")]) := by
  exact ⟨rfl, rfl⟩

/-- C10: the validator coerces `metadata.json_output` with Python
truthiness (`bool(...)`), not with the importer's token sets: whenever
validation succeeds on an input whose metadata carries `json_output`, the
record's `metadata.json_output` is the boolean truthiness of the raw
value; on strings that means `True` exactly for non-empty strings —
including the string `"false"`. -/
theorem metadata_json_output_truthiness (input m : Entries) (v : PyVal)
    (e : Option String) (rec : Entries)
    (hmeta : dictGet input "metadata" = Option.some (PyVal.dict m))
    (hjson : dictGet m "json_output" = Option.some v)
    (h : CharacterInput.validate_character_input input = (true, e, rec)) :
    (∃ md : Entries, dictGet rec "metadata" = Option.some (PyVal.dict md) ∧
      dictGet md "json_output" = Option.some (PyVal.bool (pyTruthy v))) ∧
    (∀ s : String, v = PyVal.str s → (pyTruthy v = true ↔ ¬ s = "")) ∧
    pyTruthy (PyVal.str "false") = true := by
  obtain ⟨n0, hm, he, hrec⟩ := CharacterInput.validate_ok_decomp input e rec h
  have hmetaval : CharacterInput.extractMetadata input =
      dictSet
        (match dictGet m "new_doc_title" with
         | Option.some w => dictSet [] "new_doc_title" w
         | Option.none => []) "json_output" (PyVal.bool (pyTruthy v)) := by
    simp only [CharacterInput.extractMetadata, hmeta, hjson]
  have hne : CharacterInput.extractMetadata input ≠ [] := by
    rw [hmetaval]
    exact dictSet_ne_nil _ _ _
  have hemp : (CharacterInput.extractMetadata input).isEmpty = false := by
    cases hcase : CharacterInput.extractMetadata input with
    | nil => exact absurd hcase hne
    | cons a as => simp
  refine ⟨⟨CharacterInput.extractMetadata input, ?_, ?_⟩, ?_, rfl⟩
  · rw [hrec, hemp]
    simp [dictGet_dictSet]
  · rw [hmetaval, dictGet_dictSet]
    simp
  · intro s hs
    subst hs
    by_cases hse : s = "" <;> simp [pyTruthy, hse]

/-- C10 witness: a valid input whose `metadata.json_output` is the string
`"false"`; the validated record stores the boolean `true` for it. -/
theorem metadata_json_output_truthiness_witness :
    pyTruthy (PyVal.str "false") = true :=
  (metadata_json_output_truthiness
    [("name", PyVal.str "M"), ("ethnicity", PyVal.str "E"),
     ("sex/gender", PyVal.str "x"), ("age", PyVal.str "20s"),
     ("occupation", PyVal.str "bard"),
     ("metadata", PyVal.dict [("json_output", PyVal.str "false")])]
    [("json_output", PyVal.str "false")] (PyVal.str "false") Option.none
    [("name", PyVal.str "M"), ("ethnicity", PyVal.str "E"),
     ("sex/gender", PyVal.str "x"), ("age", PyVal.str "20s"),
     ("occupation", PyVal.str "bard"),
     ("metadata", PyVal.dict [("json_output", PyVal.bool true)])]
    rfl rfl rfl).2.2

/-- C4 counterexample: `normalize_field_name` maps every single space to
one underscore, so two consecutive spaces become two underscores (not
one), and an internal tab is left untouched (not turned into an
underscore), contradicting the run-of-whitespace reading of the claim. -/
theorem normalize_field_name_counterexample :
    CsvConverter.normalize_field_name "First  Name" = "first__name" ∧
    ¬ CsvConverter.normalize_field_name "First  Name" = "first_name" ∧
    CsvConverter.normalize_field_name "First\tName" = "first\tname" ∧
    ¬ CsvConverter.normalize_field_name "First\tName" = "first_name" :=
  ⟨rfl, by decide, rfl, by decide⟩

/-- C4 amended: `normalize_field_name` lowercases, trims surrounding
whitespace, and then replaces each space character with exactly one
underscore apiece — so a run of k spaces becomes k underscores and
non-space whitespace such as tabs is preserved.  The counting conjuncts
pin the one-for-one substitution down. -/
theorem normalize_field_name_amended :
    (∀ s : String, (CsvConverter.normalize_field_name s).data =
      (pyStrip (pyLower s)).data.map (fun c => if c = ' ' then '_' else c)) ∧
    (∀ l : List Char,
      (l.map (fun c => if c = ' ' then '_' else c)).count '_' =
        l.count ' ' + l.count '_') ∧
    (∀ (l : List Char) (c : Char), ¬ c = ' ' → ¬ c = '_' →
      (l.map (fun c => if c = ' ' then '_' else c)).count c = l.count c) ∧
    CsvConverter.normalize_field_name " A  b\tC " = "a__b\tc" := by
  refine ⟨fun s => rfl, ?_, ?_, rfl⟩
  · intro l
    induction l with
    | nil => simp
    | cons c rest ih =>
      by_cases hc : c = ' '
      · subst hc
        simp [List.count_cons, ih]
        omega
      · by_cases hc2 : c = '_'
        · subst hc2
          simp [List.count_cons, ih, hc]
          omega
        · simp [List.count_cons, ih, hc, hc2]
  · intro l c hc hc2
    induction l with
    | nil => simp
    | cons a rest ih =>
      by_cases ha : a = ' '
      · subst ha
        simp [List.count_cons, ih, Ne.symm hc, Ne.symm hc2]
      · simp [List.count_cons, ih, ha]

/-- C5 counterexample: an unmatched boolean-like cell for `json_output`
is not passed through unchanged — `convert_value` strips the surrounding
whitespace first. -/
theorem convert_value_strips_counterexample :
    CsvConverter.convert_value " maybe " "json_output" =
      Option.some (PyVal.str "maybe") ∧
    ¬ CsvConverter.convert_value " maybe " "json_output" =
      Option.some (PyVal.str " maybe ") := by
  constructor
  · rfl
  · intro h
    have h1 : PyVal.str "maybe" = PyVal.str " maybe " :=
      Option.some.inj ((rfl : CsvConverter.convert_value " maybe "
        "json_output" = Option.some (PyVal.str "maybe")).symm.trans h)
    exact absurd (PyVal.str.inj h1) (by decide)

/-- C5 amended: for a `json_output` cell the raw value is stripped first;
a whitespace-only value is dropped, the stripped lowercased form is
matched against the true/false token sets, and any other value passes
through as its stripped string (not verbatim).  Cells of other fields are
never coerced to booleans. -/
theorem convert_value_json_output_amended :
    (∀ v : String, CsvConverter.convert_value v "json_output" =
      (if pyStrip v = "" then Option.none
       else if memStr (pyLower (pyStrip v)) ["true", "1", "yes", "y"] then
         Option.some (PyVal.bool true)
       else if memStr (pyLower (pyStrip v)) ["false", "0", "no", "n"] then
         Option.some (PyVal.bool false)
       else Option.some (PyVal.str (pyStrip v)))) ∧
    (∀ v f : String, ¬ pyLower f = "json_output" →
      CsvConverter.convert_value v f =
        (if pyStrip v = "" then Option.none
         else Option.some (PyVal.str (pyStrip v)))) ∧
    CsvConverter.convert_value "TRUE" "json_output" =
      Option.some (PyVal.bool true) ∧
    CsvConverter.convert_value "No" "json_output" =
      Option.some (PyVal.bool false) ∧
    CsvConverter.convert_value "maybe" "json_output" =
      Option.some (PyVal.str "maybe") ∧
    CsvConverter.convert_value "true" "titles" =
      Option.some (PyVal.str "true") ∧
    CsvConverter.convert_value "   " "json_output" = Option.none := by
  have hj : pyLower "json_output" = "json_output" := rfl
  refine ⟨?_, ?_, rfl, rfl, rfl, rfl, rfl⟩
  · intro v
    by_cases h : pyStrip v = "" <;>
      simp [CsvConverter.convert_value, h, hj]
  · intro v f hf
    by_cases h : pyStrip v = "" <;>
      simp [CsvConverter.convert_value, h, hf]

/-- C8 counterexample: an explicitly supplied empty-string subclass is not
in Fighter's subclass list, yet `enhance_character` does not raise — the
Python truthiness test treats `""` like an absent subclass, so the
generator is called and its output returned. -/
theorem enhance_character_empty_subclass_counterexample :
    DND.enhance_character (fun _ => "G") "base" "Human" "Fighter" 3
      (Option.some "") = Except.ok "G" ∧
    DND.is_valid_subclass "Fighter" "" = false :=
  ⟨rfl, rfl⟩

/-- C8 amended: `enhance_character` fails before any generator call
exactly when the species is not in SPECIES, the class is not in CLASSES,
or a supplied non-empty subclass fails `is_valid_subclass` (the empty
string counts as absent); a failing run is identical for every generator;
and for valid inputs the call proceeds for every level — out-of-range
levels included, the 1–20 bound being only a caller-side warning in
`main.py` — returning the generator's output for the prompt built with
the level unchanged. -/
theorem enhance_character_validation (gen : String → String)
    (base species cls : String) (level : Int) (sub : Option String) :
    ((∃ err, DND.enhance_character gen base species cls level sub =
        Except.error err) ↔
      (DND.is_valid_species species = false ∨ DND.is_valid_class cls = false ∨
       (DND.subclassTruthy sub = true ∧
        DND.is_valid_subclass cls (sub.getD "") = false))) ∧
    (∀ gen' : String → String,
      (∃ err, DND.enhance_character gen base species cls level sub =
        Except.error err) →
      DND.enhance_character gen' base species cls level sub =
        DND.enhance_character gen base species cls level sub) ∧
    (DND.is_valid_species species = true → DND.is_valid_class cls = true →
     (DND.subclassTruthy sub = true →
       DND.is_valid_subclass cls (sub.getD "") = true) →
     DND.enhance_character gen base species cls level sub =
       Except.ok (gen (DND.build_enhancement_prompt base species cls level
         sub))) := by
  by_cases hsp : DND.is_valid_species species = true
  · by_cases hcl : DND.is_valid_class cls = true
    · by_cases hs : (DND.subclassTruthy sub &&
        ! DND.is_valid_subclass cls (sub.getD "")) = true
      · have hparts := Bool.and_eq_true_iff.mp hs
        have hsub : DND.is_valid_subclass cls (sub.getD "") = false := by
          simpa using hparts.2
        refine ⟨?_, ?_, ?_⟩
        · simp [DND.enhance_character, hsp, hcl, hs, hparts.1, hsub]
        · intro gen' _
          simp [DND.enhance_character, hsp, hcl, hs]
        · intro _ _ himp
          exact absurd (himp hparts.1) (by simp [hsub])
      · refine ⟨?_, ?_, ?_⟩
        · simp [DND.enhance_character, hsp, hcl, hs]
          intro h1
          have hs' : (DND.subclassTruthy sub &&
              ! DND.is_valid_subclass cls (sub.getD "")) = false := by
            cases hb : (DND.subclassTruthy sub &&
                ! DND.is_valid_subclass cls (sub.getD "")) with
            | false => rfl
            | true => exact absurd hb hs
          rw [h1] at hs'
          simpa using hs'
        · intro gen' he
          exfalso
          simp [DND.enhance_character, hsp, hcl, hs] at he
        · intro _ _ _
          simp [DND.enhance_character, hsp, hcl, hs]
    · refine ⟨?_, ?_, ?_⟩
      · simp [DND.enhance_character, hsp, hcl]
      · intro gen' _
        simp [DND.enhance_character, hsp, hcl]
      · intro _ hc
        exact absurd hc hcl
  · refine ⟨?_, ?_, ?_⟩
    · simp [DND.enhance_character, hsp]
    · intro gen' _
      simp [DND.enhance_character, hsp]
    · intro hc
      exact absurd hc hsp

/-- C8 witness: the spec scenario — valid species/class, out-of-range
level 25, no subclass — proceeds and returns the generator output. -/
theorem enhance_character_validation_witness :
    DND.enhance_character (fun _ => "OUT") "b" "Human" "Fighter" 25
      Option.none = Except.ok "OUT" :=
  (enhance_character_validation (fun _ => "OUT") "b" "Human" "Fighter" 25
    Option.none).2.2 rfl rfl (by decide)

/-- C9 counterexample: a bold `**[Example]:**` line inside a section IS
registered as a field even though its label starts with an opening
bracket — the bracket exclusion guards only bullet lines. -/
theorem template_bold_bracket_counterexample :
    TemplateParser.parse_template_structure "### S\n**[Example]:**" =
      [("S", ["[Example]"])] ∧
    strLeads "[" (pyLower "[Example]") = true :=
  ⟨rfl, rfl⟩

/-- C9 amended: the placeholder exclusion holds for bullet-point lines
only — for every parser state, a `- ` or `* ` line whose extracted field
name starts with an opening bracket leaves the state unchanged (the field
is never registered); bold `**Label:**` lines carry no such check. -/
theorem bullet_bracket_label_excluded (st : TemplateParser.ParseState)
    (line : String)
    (hb : strLeads "- " (pyStrip line) = true ∨
      strLeads "* " (pyStrip line) = true)
    (hf : strLeads "["
      (pyLower
        (if (pyStrip (String.mk ((pyStrip line).data.dropWhile
              (fun c => c = '-' || c = ' ' || c = '*')))).data.contains ':' then
           pyStrip (String.mk (TemplateParser.beforeColon
             (pyStrip (String.mk ((pyStrip line).data.dropWhile
               (fun c => c = '-' || c = ' ' || c = '*')))).data))
         else pyStrip (String.mk ((pyStrip line).data.dropWhile
           (fun c => c = '-' || c = ' ' || c = '*'))))) = true) :
    TemplateParser.stepLine st line = st := by
  obtain ⟨c1, rest, hdata, hc1⟩ : ∃ c1 rest,
      (pyStrip line).data = c1 :: ' ' :: rest ∧ (c1 = '-' ∨ c1 = '*') := by
    rcases hb with h | h
    · rw [strLeads] at h
      cases hl : (pyStrip line).data with
      | nil => rw [hl] at h; simp [listLeads] at h
      | cons a tl =>
        cases tl with
        | nil => rw [hl] at h; simp [listLeads] at h
        | cons b tl2 =>
          rw [hl] at h
          simp [listLeads] at h
          exact ⟨a, tl2, by rw [← h.2], Or.inl h.1.symm⟩
    · rw [strLeads] at h
      cases hl : (pyStrip line).data with
      | nil => rw [hl] at h; simp [listLeads] at h
      | cons a tl =>
        cases tl with
        | nil => rw [hl] at h; simp [listLeads] at h
        | cons b tl2 =>
          rw [hl] at h
          simp [listLeads] at h
          exact ⟨a, tl2, by rw [← h.2], Or.inr h.1.symm⟩
  have hne : ¬ (pyStrip line = "") := by
    intro h0
    rw [h0] at hdata
    exact absurd hdata (by simp)
  have hhash : ¬ (strLeads "###" (pyStrip line) = true) := by
    rw [strLeads, hdata]
    rcases hc1 with h | h <;> subst h <;> simp [listLeads]
  have hbold : strLeads "**" (pyStrip line) = false := by
    rw [strLeads, hdata]
    rcases hc1 with h | h <;> subst h <;> simp [listLeads]
  have hbullet : (strLeads "- " (pyStrip line) ||
      strLeads "* " (pyStrip line)) = true := by
    rcases hb with h | h <;> simp [h]
  obtain ⟨struct, cur⟩ := st
  simp only [TemplateParser.stepLine]
  rw [if_neg hne, if_neg hhash]
  cases cur with
  | none => rfl
  | some sec =>
    simp only [hbold, Bool.false_and, Bool.false_eq_true, if_false, hbullet,
      if_true]
    have hne2 : ¬ ((if (pyStrip (String.mk ((pyStrip line).data.dropWhile
          (fun c => c = '-' || c = ' ' || c = '*')))).data.contains ':' then
            pyStrip (String.mk (TemplateParser.beforeColon
              (pyStrip (String.mk ((pyStrip line).data.dropWhile
                (fun c => c = '-' || c = ' ' || c = '*')))).data))
          else pyStrip (String.mk ((pyStrip line).data.dropWhile
            (fun c => c = '-' || c = ' ' || c = '*')))) = "") := by
      intro h0
      rw [h0] at hf
      exact absurd hf (by decide)
    rw [if_neg hne2, if_pos hf]

/-- C9 amended witness: a concrete bullet line with a bracketed label
leaves a concrete parser state untouched. -/
theorem bullet_bracket_label_excluded_witness :
    TemplateParser.stepLine ([("S", [])], Option.some "S") "- [blank]: x" =
      ([("S", [])], Option.some "S") :=
  bullet_bracket_label_excluded ([("S", [])], Option.some "S") "- [blank]: x"
    (Or.inl rfl) rfl

/-! ### Lemmas about the taxonomy scan -/

namespace CsvConverter

theorem findInSections_some (n : String) (secs : List (String × List String)) :
    ∀ sec fld, findInSections secs n = Option.some (sec, fld) →
      ∃ pre fs post, secs = pre ++ (sec, fs) :: post ∧ fld ∈ fs ∧
        normalize_field_name fld = n ∧
        ∀ p ∈ pre, ∀ f ∈ p.2, ¬ normalize_field_name f = n := by
  induction secs with
  | nil =>
    intro sec fld h
    exact absurd h (by simp [findInSections])
  | cons q rest ih =>
    obtain ⟨s, fs⟩ := q
    intro sec fld h
    simp only [findInSections] at h
    cases hfind : fs.find? (fun f => normalize_field_name f = n) with
    | some f =>
      rw [hfind] at h
      have hmem := List.mem_of_find?_eq_some hfind
      have hpred : normalize_field_name f = n := by
        simpa using List.find?_some hfind
      have h1 := Option.some.inj h
      have hsec : s = sec := congrArg Prod.fst h1
      have hfld : f = fld := congrArg Prod.snd h1
      subst hsec
      subst hfld
      exact ⟨[], fs, rest, by simp, hmem, hpred, by simp⟩
    | none =>
      rw [hfind] at h
      obtain ⟨pre, fs', post, hdec, hmemf, hnorm, hpre⟩ := ih sec fld h
      refine ⟨(s, fs) :: pre, fs', post, by rw [hdec, List.cons_append],
        hmemf, hnorm, ?_⟩
      intro p hp f hf
      rcases List.mem_cons.mp hp with heq | hmem2
      · subst heq
        simpa using List.find?_eq_none.mp hfind f hf
      · exact hpre p hmem2 f hf

end CsvConverter

/-- C6: `find_matching_field` first tries the metadata fields; otherwise
it returns the match from the earliest-declared section of the taxonomy
holding a field with the normalized name — every earlier section has no
such field, so duplicated field names resolve deterministically by
declaration order.  Concretely, the everywhere-duplicated label
`other notes` resolves to Demographics although a later section
(Physical Appearance, reachable once Demographics is dropped) also
carries it. -/
theorem find_matching_field_first_match :
    (∀ col sec fld,
      CsvConverter.find_matching_field col = Option.some (sec, fld) →
      ((sec = "metadata" ∧ fld ∈ CsvConverter.METADATA_FIELDS ∧
        CsvConverter.normalize_field_name fld =
          CsvConverter.normalize_field_name col) ∨
       ((∀ m ∈ CsvConverter.METADATA_FIELDS,
          ¬ CsvConverter.normalize_field_name m =
            CsvConverter.normalize_field_name col) ∧
        ∃ pre fs post,
          CsvConverter.TEMPLATE_SECTIONS = pre ++ (sec, fs) :: post ∧
          fld ∈ fs ∧
          CsvConverter.normalize_field_name fld =
            CsvConverter.normalize_field_name col ∧
          ∀ p ∈ pre, ∀ f ∈ p.2,
            ¬ CsvConverter.normalize_field_name f =
              CsvConverter.normalize_field_name col))) ∧
    CsvConverter.find_matching_field "Other Notes" =
      Option.some ("Demographics", "other notes") ∧
    CsvConverter.findInSections (CsvConverter.TEMPLATE_SECTIONS.drop 1)
      (CsvConverter.normalize_field_name "Other Notes") =
      Option.some ("Physical Appearance", "other notes") := by
  refine ⟨?_, rfl, rfl⟩
  intro col sec fld h
  simp only [CsvConverter.find_matching_field] at h
  cases hmeta : CsvConverter.METADATA_FIELDS.find?
      (fun m => CsvConverter.normalize_field_name m =
        CsvConverter.normalize_field_name col) with
  | some m =>
    rw [hmeta] at h
    have h1 := Option.some.inj h
    have hsec : "metadata" = sec := congrArg Prod.fst h1
    have hfld : m = fld := congrArg Prod.snd h1
    left
    refine ⟨hsec.symm, hfld ▸ List.mem_of_find?_eq_some hmeta, ?_⟩
    have := List.find?_some hmeta
    simpa [hfld] using this
  | none =>
    rw [hmeta] at h
    right
    constructor
    · intro m hm
      simpa using List.find?_eq_none.mp hmeta m hm
    · exact CsvConverter.findInSections_some _ _ sec fld h

/-- C6 witness: instantiating the characterization at the concrete lookup
`Other Notes` shows in particular that no metadata field matches it. -/
theorem find_matching_field_first_match_witness :
    ¬ CsvConverter.normalize_field_name "new_doc_title" =
      CsvConverter.normalize_field_name "Other Notes" := by
  rcases (find_matching_field_first_match).1 "Other Notes" "Demographics"
      "other notes" rfl with hcase | hcase
  · exact absurd hcase.1 (by decide)
  · exact hcase.1 "new_doc_title" (by decide)

/-! ### Lemmas about the brace-span extraction -/

namespace TemplateParser

theorem firstIdx_some (p : Char → Bool) (cs : List Char) :
    ∀ i, firstIdx p cs = Option.some i →
      ∃ c, cs.get? i = Option.some c ∧ p c = true := by
  induction cs with
  | nil => intro i h; exact absurd h (by simp [firstIdx])
  | cons c rest ih =>
    intro i h
    simp only [firstIdx] at h
    by_cases hp : p c = true
    · rw [if_pos hp] at h
      obtain rfl : (0 : Nat) = i := Option.some.inj h
      exact ⟨c, rfl, hp⟩
    · rw [if_neg hp] at h
      cases hrec : firstIdx p rest with
      | none => rw [hrec] at h; exact absurd h (by simp)
      | some j =>
        rw [hrec] at h
        have hji : j + 1 = i := by simpa using h
        obtain rfl := hji
        obtain ⟨c', hc', hp'⟩ := ih j hrec
        exact ⟨c', by simpa using hc', hp'⟩

theorem firstIdx_min (p : Char → Bool) (cs : List Char) :
    ∀ i, firstIdx p cs = Option.some i →
      ∀ k c, cs.get? k = Option.some c → p c = true → i ≤ k := by
  induction cs with
  | nil => intro i h; exact absurd h (by simp [firstIdx])
  | cons a rest ih =>
    intro i h k c hk hp
    simp only [firstIdx] at h
    by_cases hpa : p a = true
    · rw [if_pos hpa] at h
      obtain rfl : (0 : Nat) = i := Option.some.inj h
      exact Nat.zero_le k
    · rw [if_neg hpa] at h
      cases hrec : firstIdx p rest with
      | none => rw [hrec] at h; exact absurd h (by simp)
      | some j =>
        rw [hrec] at h
        have hji : j + 1 = i := by simpa using h
        obtain rfl := hji
        cases k with
        | zero =>
          have : a = c := by simpa using hk
          exact absurd (this ▸ hp) hpa
        | succ k' =>
          have hk' : rest.get? k' = Option.some c := by simpa using hk
          exact Nat.succ_le_succ (ih j hrec k' c hk' hp)

theorem firstIdx_none (p : Char → Bool) (cs : List Char) :
    firstIdx p cs = Option.none →
      ∀ k c, cs.get? k = Option.some c → p c = false := by
  induction cs with
  | nil => intro _ k c hk; exact absurd hk (by simp)
  | cons a rest ih =>
    intro h k c hk
    simp only [firstIdx] at h
    by_cases hpa : p a = true
    · rw [if_pos hpa] at h; exact absurd h (by simp)
    · rw [if_neg hpa] at h
      cases k with
      | zero =>
        have : a = c := by simpa using hk
        exact this ▸ Bool.not_eq_true _ ▸ hpa
      | succ k' =>
        cases hrec : firstIdx p rest with
        | some j => rw [hrec] at h; exact absurd h (by simp)
        | none =>
          have hk' : rest.get? k' = Option.some c := by simpa using hk
          exact ih hrec k' c hk'

theorem lastIdx_some (p : Char → Bool) (cs : List Char) :
    ∀ j, lastIdx p cs = Option.some j →
      ∃ c, cs.get? j = Option.some c ∧ p c = true := by
  induction cs with
  | nil => intro j h; exact absurd h (by simp [lastIdx])
  | cons a rest ih =>
    intro j h
    simp only [lastIdx] at h
    cases hrec : lastIdx p rest with
    | some i =>
      rw [hrec] at h
      obtain rfl : i + 1 = j := Option.some.inj h
      obtain ⟨c', hc', hp'⟩ := ih i hrec
      exact ⟨c', by simpa using hc', hp'⟩
    | none =>
      rw [hrec] at h
      by_cases hpa : p a = true
      · rw [if_pos hpa] at h
        obtain rfl : (0 : Nat) = j := Option.some.inj h
        exact ⟨a, rfl, hpa⟩
      · rw [if_neg hpa] at h
        exact absurd h (by simp)

theorem lastIdx_none (p : Char → Bool) (cs : List Char) :
    lastIdx p cs = Option.none →
      ∀ k c, cs.get? k = Option.some c → p c = false := by
  induction cs with
  | nil => intro _ k c hk; exact absurd hk (by simp)
  | cons a rest ih =>
    intro h k c hk
    simp only [lastIdx] at h
    cases hrec : lastIdx p rest with
    | some i => rw [hrec] at h; exact absurd h (by simp)
    | none =>
      rw [hrec] at h
      by_cases hpa : p a = true
      · rw [if_pos hpa] at h; exact absurd h (by simp)
      · cases k with
        | zero =>
          have : a = c := by simpa using hk
          exact this ▸ Bool.not_eq_true _ ▸ hpa
        | succ k' =>
          have hk' : rest.get? k' = Option.some c := by simpa using hk
          exact ih hrec k' c hk'

theorem lastIdx_max (p : Char → Bool) (cs : List Char) :
    ∀ j, lastIdx p cs = Option.some j →
      ∀ k c, cs.get? k = Option.some c → p c = true → k ≤ j := by
  induction cs with
  | nil => intro j h; exact absurd h (by simp [lastIdx])
  | cons a rest ih =>
    intro j h k c hk hp
    simp only [lastIdx] at h
    cases hrec : lastIdx p rest with
    | some i =>
      rw [hrec] at h
      obtain rfl : i + 1 = j := Option.some.inj h
      cases k with
      | zero => exact Nat.zero_le _
      | succ k' =>
        have hk' : rest.get? k' = Option.some c := by simpa using hk
        exact Nat.succ_le_succ (ih i hrec k' c hk' hp)
    | none =>
      rw [hrec] at h
      by_cases hpa : p a = true
      · rw [if_pos hpa] at h
        obtain rfl : (0 : Nat) = j := Option.some.inj h
        cases k with
        | zero => exact Nat.le_refl 0
        | succ k' =>
          have hk' : rest.get? k' = Option.some c := by simpa using hk
          have := lastIdx_none p rest hrec k' c hk'
          rw [hp] at this
          exact absurd this (by simp)
      · rw [if_neg hpa] at h
        exact absurd h (by simp)

end TemplateParser

/-- C7: `validate_json_output` reports the no-JSON error when the text
holds no brace-delimited span, wraps the underlying parser's message in
the decode-error text when the span fails to parse, and returns the
parsed object otherwise — for any external parser; the extracted span
runs from the first opening brace to the last closing brace (a span
exists exactly when that first brace precedes that last brace, tolerating
arbitrary surrounding prose); and on the scenario response around
Demographics/Zara the modelled parser yields exactly that object. -/
theorem validate_json_output_spec :
    (∀ (parse : String → Except String TemplateParser.Json) (text : String),
      (TemplateParser.extractJsonSpan text = Option.none →
        TemplateParser.validate_json_output parse text =
          (false, Option.none, "No JSON found in response")) ∧
      (∀ span, TemplateParser.extractJsonSpan text = Option.some span →
        (∀ err, parse span = Except.error err →
          TemplateParser.validate_json_output parse text =
            (false, Option.none, "JSON decode error: " ++ err)) ∧
        (∀ j, parse span = Except.ok j →
          TemplateParser.validate_json_output parse text =
            (true, Option.some j, "")))) ∧
    (∀ text span, TemplateParser.extractJsonSpan text = Option.some span →
      ∃ i j, i < j ∧
        text.data.get? i = Option.some '\x7b' ∧
        (∀ k c, k < i → text.data.get? k = Option.some c → ¬ c = '\x7b') ∧
        text.data.get? j = Option.some '\x7d' ∧
        (∀ k c, j < k → text.data.get? k = Option.some c → ¬ c = '\x7d') ∧
        span = String.mk ((text.data.drop i).take (j - i + 1))) ∧
    (∀ text, TemplateParser.extractJsonSpan text = Option.none →
      ∀ i j, i < j →
        ¬ (text.data.get? i = Option.some '\x7b' ∧
           text.data.get? j = Option.some '\x7d')) ∧
    TemplateParser.validate_json_output TemplateParser.jsonParse
      "Here you go:\n\x7b\"Demographics\": \x7b\"name\": \"Zara\"\x7d\x7d\nEnjoy!" =
      (true, Option.some (TemplateParser.Json.obj
        [("Demographics", TemplateParser.Json.obj
          [("name", TemplateParser.Json.str "Zara")])]), "") := by
  refine ⟨?_, ?_, ?_, rfl⟩
  · intro parse text
    constructor
    · intro hnone
      simp only [TemplateParser.validate_json_output, hnone]
    · intro span hspan
      constructor
      · intro err herr
        simp only [TemplateParser.validate_json_output, hspan, herr]
      · intro j hok
        simp only [TemplateParser.validate_json_output, hspan, hok]
  · intro text span hspan
    simp only [TemplateParser.extractJsonSpan] at hspan
    cases hfi : TemplateParser.firstIdx (fun c => c = '\x7b') text.data with
    | none => rw [hfi] at hspan; exact absurd hspan (by simp)
    | some i =>
      cases hli : TemplateParser.lastIdx (fun c => c = '\x7d') text.data with
      | none => rw [hfi, hli] at hspan; exact absurd hspan (by simp)
      | some j =>
        rw [hfi, hli] at hspan
        simp only [] at hspan
        by_cases hij : i < j
        · rw [if_pos hij] at hspan
          obtain ⟨cb, hcb, hpb⟩ := TemplateParser.firstIdx_some _ _ i hfi
          obtain ⟨ce, hce, hpe⟩ := TemplateParser.lastIdx_some _ _ j hli
          have hcb' : cb = '\x7b' := by simpa using hpb
          have hce' : ce = '\x7d' := by simpa using hpe
          refine ⟨i, j, hij, hcb' ▸ hcb, ?_, hce' ▸ hce, ?_,
            (Option.some.inj hspan).symm⟩
          · intro k c hk hkc hc
            subst hc
            have := TemplateParser.firstIdx_min _ _ i hfi k _ hkc (by simp)
            omega
          · intro k c hk hkc hc
            subst hc
            have := TemplateParser.lastIdx_max _ _ j hli k _ hkc (by simp)
            omega
        · rw [if_neg hij] at hspan
          exact absurd hspan (by simp)
  · intro text hnone i j hij ⟨hbi, hbj⟩
    simp only [TemplateParser.extractJsonSpan] at hnone
    cases hfi : TemplateParser.firstIdx (fun c => c = '\x7b') text.data with
    | none =>
      have := TemplateParser.firstIdx_none _ _ hfi i _ hbi
      simp at this
    | some i0 =>
      cases hli : TemplateParser.lastIdx (fun c => c = '\x7d') text.data with
      | none =>
        have := TemplateParser.lastIdx_none _ _ hli j _ hbj
        simp at this
      | some j0 =>
        rw [hfi, hli] at hnone
        simp only [] at hnone
        by_cases h0 : i0 < j0
        · rw [if_pos h0] at hnone
          exact absurd hnone (by simp)
        · have h1 := TemplateParser.firstIdx_min _ _ i0 hfi i _ hbi (by simp)
          have h2 := TemplateParser.lastIdx_max _ _ j0 hli j _ hbj (by simp)
          omega

/-- C7 witness: a braceless text discharges the no-span hypothesis and
produces the no-JSON failure triple. -/
theorem validate_json_output_spec_witness :
    TemplateParser.validate_json_output TemplateParser.jsonParse
      "no braces here" = (false, Option.none, "No JSON found in response") :=
  ((validate_json_output_spec).1 TemplateParser.jsonParse
    "no braces here").1 rfl

/-- C4 amended witness: the count-preservation conjunct instantiated at a
concrete list and non-space, non-underscore character. -/
theorem normalize_field_name_amended_witness :
    ((['F', ' ', ' ', 'b'].map (fun c => if c = ' ' then '_' else c)).count 'b')
      = (['F', ' ', ' ', 'b'].count 'b') :=
  (normalize_field_name_amended).2.2.1 ['F', ' ', ' ', 'b'] 'b' (by decide)
    (by decide)

/-- C5 amended witness: a non-`json_output` field never coerces its cell,
instantiated concretely. -/
theorem convert_value_json_output_amended_witness :
    CsvConverter.convert_value " x " "titles" =
      (if pyStrip " x " = "" then Option.none
       else Option.some (PyVal.str (pyStrip " x "))) :=
  (convert_value_json_output_amended).2.1 " x " "titles" (by decide)
